import Mathlib

/-!
Verification development for the pkl-proxy repository (Go).

The repository runs a local HTTP proxy that authenticates to GitHub as a
GitHub App and serves private release assets. We shallowly embed the parts
of the code the claims are about:

* `auth.go`: `TokenManager` with its owner-keyed cache (`getOrSetSource`,
  `TokenForRepo`, `lookupRepoInstallation` modelled as an oracle).
* `buildTokenSource` (single-source startup variant): installation
  discovery and its zero/one/many branches.
* `proxy.go`: the release handlers `taggedHandler` / `taggedFileHandler`,
  the asset fetch `file`, route registration on the `ServeMux`, and
  `GithubTripper.RoundTrip`.

Network calls are modelled as oracle functions passed in as parameters;
token sources are modelled as records tagged with a fresh object id (so
that object identity of cached sources can be stated) and the installation
id they were built from.
-/

namespace PklProxy

/-- A token source object, as created by
`githubauth.NewInstallationTokenSource(instId, appTokenSource)`.
`objId` is a ghost tag: each factory invocation creates a fresh object, and
`objId` records which invocation created this source, so that "the identical
source object" is expressible. `instId` is the installation id the source
was built from. -/
structure Source where
  objId : Nat
  instId : Int
  deriving DecidableEq, Repr

/-- State of a `TokenManager` (auth.go): the optional fixed installation id
from config, the owner-keyed cache (a Go `map[string]oauth2.TokenSource`,
modelled as an association list that `getOrSetSource` keeps duplicate-free),
and the ghost supply of fresh object ids. -/
structure TMState where
  installationId : Option Int
  cache : List (String × Source)
  nextObj : Nat
  deriving DecidableEq, Repr

/-- Lookup in the owner-keyed cache (Go map indexing `tm.cache[owner]`). -/
def lookupOwner (k : String) : List (String × Source) → Option Source
  | [] => none
  | (o, ts) :: rest => if o = k then some ts else lookupOwner k rest

/-- `getOrSetSource` (auth.go lines 98-107): under the exclusive lock,
return the cached source for `owner` if present; otherwise invoke the
factory, store the result and return it. The factory closure in the Go
code always builds `NewInstallationTokenSource(factInst, appTokenSource)`;
invoking it here creates a fresh `Source` with installation id `factInst`.
The third component records whether the factory was invoked. -/
def getOrSetSource (s : TMState) (owner : String) (factInst : Int) :
    Source × TMState × Bool :=
  match lookupOwner owner s.cache with
  | some ts => (ts, s, false)
  | none =>
      let ts : Source := ⟨s.nextObj, factInst⟩
      (ts, { s with cache := (owner, ts) :: s.cache, nextObj := s.nextObj + 1 }, true)

/-- Run a sequence of `getOrSetSource` calls; each call is a pair of the
owner key and the installation id its factory closure would use. Returns
the final state and, per call, the owner, the returned source and whether
the factory was invoked. -/
def runCalls : TMState → List (String × Int) → TMState × List (String × Source × Bool)
  | s, [] => (s, [])
  | s, (o, i) :: rest =>
      let out := getOrSetSource s o i
      let tail := runCalls out.2.1 rest
      (tail.1, (o, out.1, out.2.2) :: tail.2)

/-- Number of factory invocations (source creations) for key `k` in a call
trace. -/
def creationsFor (k : String) : List (String × Source × Bool) → Nat
  | [] => 0
  | (o, _, inv) :: rest =>
      (if o = k ∧ inv = true then 1 else 0) + creationsFor k rest

/-- The sources returned to callers for key `k`, in call order. -/
def resultsFor (k : String) : List (String × Source × Bool) → List Source
  | [] => []
  | (o, ts, _) :: rest =>
      if o = k then ts :: resultsFor k rest else resultsFor k rest

/-- The outcome of one `TokenForRepo` call: the token result (or error),
the token-manager state after the call, how many times
`lookupRepoInstallation` (the per-repository installation discovery call,
`GET /repos/OWNER/REPO/installation`) was invoked during the call, whether
the factory was invoked, and which cached source served the call (ghost;
`none` when the call errored before reaching a source). -/
structure TFRout where
  result : Except String String
  state : TMState
  lookupCalls : Nat
  factoryInvoked : Bool
  source : Option Source
  deriving Repr

/-- `TokenForRepo` (auth.go lines 66-93). Oracles: `lookupInst owner repo`
is the outcome of `lookupRepoInstallation` (the installation id covering
the repo, or the wrapped HTTP error), and `mint ts` is the outcome of
`ts.Token()` on a source (an access token string, or an error).

Fixed-installation mode (`installationId` set): `getOrSetSource` with a
factory that uses the fixed id, then mint. Dynamic mode: read-locked cache
check; on a hit, mint from the cached source; on a miss, perform the
per-repo installation lookup, propagate its error without touching the
cache, otherwise `getOrSetSource` with the discovered id and mint. -/
def TokenForRepo (lookupInst : String → String → Except String Int)
    (mint : Source → Except String String)
    (s : TMState) (owner repo : String) : TFRout :=
  match s.installationId with
  | some fid =>
      let out := getOrSetSource s owner fid
      { result := mint out.1, state := out.2.1, lookupCalls := 0,
        factoryInvoked := out.2.2, source := some out.1 }
  | none =>
      match lookupOwner owner s.cache with
      | some ts =>
          { result := mint ts, state := s, lookupCalls := 0,
            factoryInvoked := false, source := some ts }
      | none =>
          match lookupInst owner repo with
          | Except.error e =>
              { result := Except.error
                  ("looking up installation for " ++ owner ++ "/" ++ repo ++ ": " ++ e),
                state := s, lookupCalls := 1, factoryInvoked := false, source := none }
          | Except.ok instId =>
              let out := getOrSetSource s owner instId
              { result := mint out.1, state := out.2.1, lookupCalls := 1,
                factoryInvoked := out.2.2, source := some out.1 }

/-- Run a sequence of `TokenForRepo` calls, each an (owner, repo) pair. -/
def runRepos (lookupInst : String → String → Except String Int)
    (mint : Source → Except String String) :
    TMState → List (String × String) → TMState × List TFRout
  | s, [] => (s, [])
  | s, (o, r) :: rest =>
      let out := TokenForRepo lookupInst mint s o r
      let tail := runRepos lookupInst mint out.state rest
      (tail.1, out :: tail.2)

/-- The initial `TokenManager` state built by `NewTokenManager`
(auth.go lines 42-46): the configured optional installation id and an
empty cache. -/
def initTM (installationId : Option Int) : TMState :=
  { installationId := installationId, cache := [], nextObj := 0 }

/-! ### buildTokenSource (single-source startup variant) -/

/-- The subset of `appconfig.AppConfig` that `buildTokenSource` and
`NewTokenManager` read: optional numeric App id, optional client id,
optional fixed installation id. -/
structure AppConfig where
  appId : Option Int
  clientId : Option String
  installationId : Option Int
  deriving Repr

/-- A GitHub installation record (`ghInstallation` in auth.go):
`{id, account.login, repository_selection}`. -/
structure GhInstallation where
  id : Int
  accountLogin : String
  repositorySelection : String
  deriving DecidableEq, Repr

/-- The token source produced by `buildTokenSource`:
`NewInstallationTokenSource(id, appTokenSource)` for some installation id. -/
inductive BuiltSource where
  | installation (id : Int)
  deriving DecidableEq, Repr

/-- `buildTokenSource` (the startup variant, src/unnamed/part_000 lines
16-59). Oracles: `mkApp` is the outcome of
`githubauth.NewApplicationTokenSource` (external signing primitive), and
`discover` is the outcome of `discoverInstallations` (the
`GET /app/installations` call). Returns the construction result together
with the lines printed to stdout (so that "surfaces the list to the
operator" is expressible).

Branches, in source order: neither `appId` nor `clientId` set is a config
error; a signing error is propagated; an explicit `installationId` is used
directly; otherwise installations are discovered, and zero installations,
exactly one, and more than one take the three branches at lines 43-58. -/
def buildTokenSource (config : AppConfig) (mkApp : Except String Unit)
    (discover : Except String (List GhInstallation)) :
    Except String BuiltSource × List String :=
  if config.appId = none ∧ config.clientId = none then
    (Except.error "config must set either appId or clientId", [])
  else
    match mkApp with
    | Except.error e =>
        (Except.error ("creating application token source: " ++ e), [])
    | Except.ok _ =>
        match config.installationId with
        | some iid => (Except.ok (BuiltSource.installation iid), [])
        | none =>
            match discover with
            | Except.error e =>
                (Except.error ("discovering installations: " ++ e), [])
            | Except.ok insts =>
                match insts with
                | [] =>
                    (Except.error
                      "no installations found; install the GitHub App on an account first", [])
                | [inst] =>
                    (Except.ok (BuiltSource.installation inst.id),
                     ["Using installation " ++ toString inst.id ++
                      " (" ++ inst.accountLogin ++ ")"])
                | _ =>
                    (Except.error
                      "multiple installations found; set installationId in config to select one",
                     "Multiple installations found:" ::
                       insts.map (fun i =>
                         "  - " ++ i.accountLogin ++
                         " (installation ID: " ++ toString i.id ++ ")"))

/-! ### Release handlers (proxy.go) -/

/-- `githubFileAsset` (proxy.go): one entry of the release's `assets`
array, with the JSON fields `name`, `content_type`,
`browser_download_url` and `url` (the direct API URL). -/
structure GithubFileAsset where
  name : String
  contentType : String
  browserDownloadURL : String
  url : String
  deriving DecidableEq, Repr

/-- The request the `file` method (proxy.go lines 152-168) builds for a
matched asset: `GET` on the asset's `url` field with the `Accept` header
set to `application/octet-stream`. -/
structure AssetRequest where
  method : String
  url : String
  accept : String
  deriving DecidableEq, Repr

/-- The request `file` builds for asset `a`: method GET, URL `a.url`
(the API URL, not `a.browserDownloadURL`), Accept
`application/octet-stream`. -/
def mkAssetRequest (a : GithubFileAsset) : AssetRequest :=
  { method := "GET", url := a.url, accept := "application/octet-stream" }

/-- The `file` method (proxy.go lines 152-168): issue the asset request;
a transport error is wrapped; a non-200 status is an error; otherwise the
body is returned for streaming. The oracle `doReq` gives the outcome of
`p.client.Do` on the asset request: a transport error, or a status code
and body. -/
def fileFetch (doReq : AssetRequest → Except String (Nat × String))
    (a : GithubFileAsset) : Except String String :=
  match doReq (mkAssetRequest a) with
  | Except.error e => Except.error ("error making request for asset: " ++ e)
  | Except.ok (status, body) =>
      if status = 200 then Except.ok body
      else Except.error
        ("GitHub API returned non-200 status for asset: " ++ toString status)

/-- The first asset in `assets` whose `name` equals `target` — the linear
scan `for _, f := range files { if f.Name == target { ... } }` of the
handlers. Exact string equality, case-sensitive, first match wins. -/
def findAsset (assets : List GithubFileAsset) (target : String) :
    Option GithubFileAsset :=
  match assets with
  | [] => none
  | a :: rest => if a.name = target then some a else findAsset rest target

/-- What a handler writes to the `http.ResponseWriter`: a streamed 200
body, an `http.Error` with a status and message, or nothing at all (the
handler returned without writing; Go then sends an implicit 200 with an
empty body). -/
inductive HandlerResponse where
  | body (content : String)
  | httpError (status : Nat) (message : String)
  | unwritten
  deriving DecidableEq, Repr

/-- Outcome of a handler invocation: the response written and the list of
second-stage upstream requests issued for asset bytes (the `files`
metadata fetch is the handler's input, below). -/
structure HandlerOutcome where
  response : HandlerResponse
  assetRequests : List AssetRequest
  deriving DecidableEq, Repr

/-- `taggedHandler` (proxy.go lines 59-87), route `/OWNER/REPO/TAG`, from
the point where the release metadata fetch has completed. `filesResult` is
the outcome of `p.files(...)` (error, or the release's asset list); the
asset whose name equals the tag is fetched and streamed. When the metadata
fetch fails the handler writes a 500. When no asset name equals the tag
the loop falls through and the handler returns without writing anything. -/
def taggedHandler (doReq : AssetRequest → Except String (Nat × String))
    (filesResult : Except String (List GithubFileAsset)) (tag : String) :
    HandlerOutcome :=
  match filesResult with
  | Except.error e =>
      { response := HandlerResponse.httpError 500
          ("Error fetching release files: " ++ e), assetRequests := [] }
  | Except.ok assets =>
      match findAsset assets tag with
      | none => { response := HandlerResponse.unwritten, assetRequests := [] }
      | some a =>
          match fileFetch doReq a with
          | Except.error e =>
              { response := HandlerResponse.httpError 500
                  ("Error fetching file content: " ++ e),
                assetRequests := [mkAssetRequest a] }
          | Except.ok content =>
              { response := HandlerResponse.body content,
                assetRequests := [mkAssetRequest a] }

/-- `taggedFileHandler` (proxy.go lines 89-119), routes
`/OWNER/REPO/TAG/FILE` and `/OWNER/REPO/releases/download/TAG/FILE`, from
the point where the release metadata fetch has completed. Identical to
`taggedHandler` except that the match target is the requested file name
and that a fall-through writes
`http.Error(w, "File not found in release assets", 404)`. -/
def taggedFileHandler (doReq : AssetRequest → Except String (Nat × String))
    (filesResult : Except String (List GithubFileAsset)) (fname : String) :
    HandlerOutcome :=
  match filesResult with
  | Except.error e =>
      { response := HandlerResponse.httpError 500
          ("Error fetching release files: " ++ e), assetRequests := [] }
  | Except.ok assets =>
      match findAsset assets fname with
      | none =>
          { response := HandlerResponse.httpError 404
              "File not found in release assets", assetRequests := [] }
      | some a =>
          match fileFetch doReq a with
          | Except.error e =>
              { response := HandlerResponse.httpError 500
                  ("Error fetching file content: " ++ e),
                assetRequests := [mkAssetRequest a] }
          | Except.ok content =>
              { response := HandlerResponse.body content,
                assetRequests := [mkAssetRequest a] }

/-! ### Route registration (proxy.go lines 46-50) -/

/-- Which handler a request is dispatched to by the `http.ServeMux` built
in `NewGithubPrivateReleaseProxy`, carrying the extracted path values. -/
inductive RouteMatch where
  | tagged (user repo tag : String)
  | taggedFile (user repo tag fname : String)
  | releasesDownload (user repo tag fname : String)
  | notFound
  deriving DecidableEq, Repr

/-- The `ServeMux` dispatch for the three registered patterns
`/{user}/{repo}/{tag}`, `/{user}/{repo}/{tag}/{file}` and
`/{user}/{repo}/releases/download/{tag}/{file}`, on the segments of the
request path. Each `{x}` wildcard matches exactly one path segment; the
six-segment pattern with the literal `releases`/`download` segments is the
most specific, and patterns of different segment counts never overlap, so
the three patterns match segment lists of lengths 3, 4 and 6 and the
literal segments of the third pattern are tested explicitly.
None of the three patterns carries a method selector, so the mux
dispatches every HTTP method alike; `method` is therefore unused.
A path whose segment list fits none of the patterns gets the mux's
default not-found response. -/
def muxRoute (_method : String) (segs : List String) : RouteMatch :=
  match segs with
  | [u, r, t] => RouteMatch.tagged u r t
  | [u, r, t, f] => RouteMatch.taggedFile u r t f
  | [u, r, c, d, t, f] =>
      if c = "releases" ∧ d = "download" then RouteMatch.releasesDownload u r t f
      else RouteMatch.notFound
  | _ => RouteMatch.notFound

/-! ### GithubTripper.RoundTrip (proxy.go lines 185-196) -/

/-- An outbound HTTP request as seen by the transport: the optional
tenant context bound by `withRepo` (owner, repo), and its headers. -/
structure OutRequest where
  tenantContext : Option (String × String)
  headers : List (String × String)
  deriving DecidableEq, Repr

/-- `req.Header.Set(k, v)`: replace any existing value for the key. -/
def setHeader (hs : List (String × String)) (k v : String) :
    List (String × String) :=
  (k, v) :: hs.filter (fun h => !(h.1 == k))

/-- First header value for a key. -/
def getHeader (hs : List (String × String)) (k : String) : Option String :=
  match hs with
  | [] => none
  | (k2, v) :: rest => if k2 = k then some v else getHeader rest k

/-- Result of `GithubTripper.RoundTrip`: the call result (a response,
modelled abstractly as a `Nat`, or an error), whether the underlying
transport (`http.DefaultTransport.RoundTrip`) was invoked, the request as
it stood when the method returned, and the token-manager state after the
call. -/
structure RoundTripOut where
  result : Except String Nat
  delegated : Bool
  request : OutRequest
  tmState : TMState
  deriving Repr

/-- `GithubTripper.RoundTrip` (proxy.go lines 185-196): read the repo
context from the request; if absent, fail without sending. Otherwise call
`tm.TokenForRepo(owner, repo)`; on error, wrap and fail without sending.
Otherwise set the `Authorization` header to `token ` + the access token
and delegate to the underlying transport (`base`, an oracle from requests
to responses-or-transport-errors). -/
def roundTrip (lookupInst : String → String → Except String Int)
    (mint : Source → Except String String)
    (base : OutRequest → Except String Nat)
    (s : TMState) (req : OutRequest) : RoundTripOut :=
  match req.tenantContext with
  | none =>
      { result := Except.error "no repo context set on request",
        delegated := false, request := req, tmState := s }
  | some (owner, repo) =>
      let out := TokenForRepo lookupInst mint s owner repo
      match out.result with
      | Except.error e =>
          { result := Except.error ("error getting token: " ++ e),
            delegated := false, request := req, tmState := out.state }
      | Except.ok accessToken =>
          let req2 : OutRequest :=
            { req with
              headers := setHeader req.headers "Authorization" ("token " ++ accessToken) }
          { result := base req2, delegated := true, request := req2,
            tmState := out.state }

/-! ### Cache lemmas -/

theorem lookupOwner_cons (k o : String) (ts : Source) (c : List (String × Source)) :
    lookupOwner k ((o, ts) :: c) = if o = k then some ts else lookupOwner k c := rfl

theorem lookupOwner_mem {k : String} {v : Source} :
    ∀ {c : List (String × Source)}, lookupOwner k c = some v → (k, v) ∈ c := by
  intro c
  induction c with
  | nil => intro h; cases h
  | cons p rest ih =>
      obtain ⟨o, ts⟩ := p
      intro h
      rw [lookupOwner_cons] at h
      by_cases ho : o = k
      · rw [if_pos ho] at h
        subst ho
        cases h
        exact List.mem_cons_self _ _
      · rw [if_neg ho] at h
        exact List.mem_cons_of_mem _ (ih h)

theorem lookupOwner_none_not_mem {k : String} :
    ∀ {c : List (String × Source)}, lookupOwner k c = none →
      k ∉ c.map Prod.fst := by
  intro c
  induction c with
  | nil => intro _ h; cases h
  | cons p rest ih =>
      obtain ⟨o, ts⟩ := p
      intro h hmem
      rw [lookupOwner_cons] at h
      rcases List.mem_cons.mp hmem with he | hmem2
      · rw [if_pos he.symm] at h; cases h
      · by_cases ho : o = k
        · rw [if_pos ho] at h; cases h
        · rw [if_neg ho] at h; exact ih h hmem2

theorem getOrSetSource_hit {s : TMState} {o : String} {ts : Source} (i : Int)
    (h : lookupOwner o s.cache = some ts) :
    getOrSetSource s o i = (ts, s, false) := by
  simp [getOrSetSource, h]

theorem getOrSetSource_miss {s : TMState} {o : String} (i : Int)
    (h : lookupOwner o s.cache = none) :
    getOrSetSource s o i =
      (⟨s.nextObj, i⟩,
       { s with cache := (o, ⟨s.nextObj, i⟩) :: s.cache, nextObj := s.nextObj + 1 },
       true) := by
  simp [getOrSetSource, h]

theorem getOrSetSource_installationId (s : TMState) (o : String) (i : Int) :
    (getOrSetSource s o i).2.1.installationId = s.installationId := by
  cases h : lookupOwner o s.cache
  · rw [getOrSetSource_miss i h]
  · rw [getOrSetSource_hit i h]

theorem getOrSetSource_preserves {s : TMState} {o : String} (i : Int)
    {k : String} {v : Source} (h : lookupOwner k s.cache = some v) :
    lookupOwner k (getOrSetSource s o i).2.1.cache = some v := by
  cases hc : lookupOwner o s.cache with
  | some ts => rw [getOrSetSource_hit i hc]; exact h
  | none =>
      have hne : o ≠ k := by
        intro he; subst he; rw [hc] at h; cases h
      rw [getOrSetSource_miss i hc]
      simpa [lookupOwner_cons, if_neg hne] using h

theorem getOrSetSource_none_other {s : TMState} {o : String} (i : Int)
    {k : String} (hne : o ≠ k) (h : lookupOwner k s.cache = none) :
    lookupOwner k (getOrSetSource s o i).2.1.cache = none := by
  cases hc : lookupOwner o s.cache with
  | some ts => rw [getOrSetSource_hit i hc]; exact h
  | none =>
      rw [getOrSetSource_miss i hc]
      simpa [lookupOwner_cons, if_neg hne] using h

theorem runCalls_cons (s : TMState) (o : String) (i : Int)
    (rest : List (String × Int)) :
    runCalls s ((o, i) :: rest) =
      ((runCalls (getOrSetSource s o i).2.1 rest).1,
       (o, (getOrSetSource s o i).1, (getOrSetSource s o i).2.2) ::
         (runCalls (getOrSetSource s o i).2.1 rest).2) := rfl

theorem creationsFor_cons (k o : String) (ts : Source) (inv : Bool)
    (rest : List (String × Source × Bool)) :
    creationsFor k ((o, ts, inv) :: rest) =
      (if o = k ∧ inv = true then 1 else 0) + creationsFor k rest := rfl

theorem resultsFor_cons (k o : String) (ts : Source) (inv : Bool)
    (rest : List (String × Source × Bool)) :
    resultsFor k ((o, ts, inv) :: rest) =
      if o = k then ts :: resultsFor k rest else resultsFor k rest := rfl

/-- Once key `k` is cached with source `v`, a whole trace of further
`getOrSetSource` calls keeps the entry, never invokes the factory for `k`
again, and serves every call for `k` with `v`. -/
theorem runCalls_present (k : String) (v : Source) :
    ∀ (calls : List (String × Int)) (s : TMState),
      lookupOwner k s.cache = some v →
      lookupOwner k (runCalls s calls).1.cache = some v ∧
      creationsFor k (runCalls s calls).2 = 0 ∧
      ∀ r ∈ resultsFor k (runCalls s calls).2, r = v := by
  intro calls
  induction calls with
  | nil =>
      intro s h
      exact ⟨h, rfl, by intro r hr; cases hr⟩
  | cons c rest ih =>
      obtain ⟨o, i⟩ := c
      intro s h
      by_cases ho : o = k
      · subst ho
        rw [runCalls_cons, getOrSetSource_hit i h]
        obtain ⟨h1, h2, h3⟩ := ih s h
        refine ⟨h1, ?_, ?_⟩
        · rw [creationsFor_cons]
          simpa using h2
        · rw [resultsFor_cons, if_pos rfl]
          intro r hr
          rcases List.mem_cons.mp hr with he | hm
          · exact he
          · exact h3 r hm
      · rw [runCalls_cons]
        obtain ⟨h1, h2, h3⟩ := ih _ (getOrSetSource_preserves i h)
        refine ⟨h1, ?_, ?_⟩
        · rw [creationsFor_cons, if_neg (by simp [ho])]
          simpa using h2
        · rw [resultsFor_cons, if_neg ho]
          exact h3

/-- From a state where key `k` is absent, any trace of `getOrSetSource`
calls invokes the factory for `k` at most once, and all sources returned
for `k` are the identical object. -/
theorem runCalls_fresh (k : String) :
    ∀ (calls : List (String × Int)) (s : TMState),
      lookupOwner k s.cache = none →
      creationsFor k (runCalls s calls).2 ≤ 1 ∧
      ∀ r1 ∈ resultsFor k (runCalls s calls).2,
        ∀ r2 ∈ resultsFor k (runCalls s calls).2, r1 = r2 := by
  intro calls
  induction calls with
  | nil =>
      intro s _
      exact ⟨by simp [runCalls, creationsFor], by intro r1 hr1; cases hr1⟩
  | cons c rest ih =>
      obtain ⟨o, i⟩ := c
      intro s h
      by_cases ho : o = k
      · subst ho
        rw [runCalls_cons]
        have hinv : (getOrSetSource s o i).2.2 = true := by
          rw [getOrSetSource_miss i h]
        have hpost : lookupOwner o (getOrSetSource s o i).2.1.cache =
            some (getOrSetSource s o i).1 := by
          rw [getOrSetSource_miss i h]
          simp [lookupOwner_cons]
        obtain ⟨_, h2, h3⟩ := runCalls_present o _ rest _ hpost
        constructor
        · rw [creationsFor_cons, if_pos ⟨rfl, hinv⟩, h2]
        · rw [resultsFor_cons, if_pos rfl]
          intro r1 hr1 r2 hr2
          rcases List.mem_cons.mp hr1 with he1 | hm1 <;>
            rcases List.mem_cons.mp hr2 with he2 | hm2
          · rw [he1, he2]
          · rw [he1, h3 r2 hm2]
          · rw [he2, h3 r1 hm1]
          · rw [h3 r1 hm1, h3 r2 hm2]
      · rw [runCalls_cons]
        obtain ⟨h1, h2⟩ := ih _ (getOrSetSource_none_other i ho h)
        refine ⟨?_, ?_⟩
        · rw [creationsFor_cons, if_neg (by simp [ho])]
          simpa using h1
        · rw [resultsFor_cons, if_neg ho]
          exact h2

/-! ### TokenForRepo lemmas -/

theorem tokenForRepo_fixed {s : TMState} {fid : Int}
    (hfix : s.installationId = some fid)
    (lookupInst : String → String → Except String Int)
    (mint : Source → Except String String) (o r : String) :
    TokenForRepo lookupInst mint s o r =
      { result := mint (getOrSetSource s o fid).1,
        state := (getOrSetSource s o fid).2.1, lookupCalls := 0,
        factoryInvoked := (getOrSetSource s o fid).2.2,
        source := some (getOrSetSource s o fid).1 } := by
  simp [TokenForRepo, hfix]

theorem tokenForRepo_dyn_hit {s : TMState} {o : String} {ts : Source}
    (hdyn : s.installationId = none) (hhit : lookupOwner o s.cache = some ts)
    (lookupInst : String → String → Except String Int)
    (mint : Source → Except String String) (r : String) :
    TokenForRepo lookupInst mint s o r =
      { result := mint ts, state := s, lookupCalls := 0,
        factoryInvoked := false, source := some ts } := by
  simp [TokenForRepo, hdyn, hhit]

theorem tokenForRepo_dyn_lookup_err {s : TMState} {o r : String} {e : String}
    (hdyn : s.installationId = none) (hmiss : lookupOwner o s.cache = none)
    {lookupInst : String → String → Except String Int}
    (herr : lookupInst o r = Except.error e)
    (mint : Source → Except String String) :
    TokenForRepo lookupInst mint s o r =
      { result := Except.error
          ("looking up installation for " ++ o ++ "/" ++ r ++ ": " ++ e),
        state := s, lookupCalls := 1, factoryInvoked := false,
        source := none } := by
  simp [TokenForRepo, hdyn, hmiss, herr]

theorem tokenForRepo_dyn_lookup_ok {s : TMState} {o r : String} {instId : Int}
    (hdyn : s.installationId = none) (hmiss : lookupOwner o s.cache = none)
    {lookupInst : String → String → Except String Int}
    (hok : lookupInst o r = Except.ok instId)
    (mint : Source → Except String String) :
    TokenForRepo lookupInst mint s o r =
      { result := mint (getOrSetSource s o instId).1,
        state := (getOrSetSource s o instId).2.1, lookupCalls := 1,
        factoryInvoked := (getOrSetSource s o instId).2.2,
        source := some (getOrSetSource s o instId).1 } := by
  simp [TokenForRepo, hdyn, hmiss, hok]

/-- A `TokenForRepo` call never changes the configured installation id and
never drops or replaces an existing cache entry. -/
theorem tokenForRepo_preserves (lookupInst : String → String → Except String Int)
    (mint : Source → Except String String) (s : TMState) (o r : String) :
    (TokenForRepo lookupInst mint s o r).state.installationId = s.installationId ∧
    ∀ k v, lookupOwner k s.cache = some v →
      lookupOwner k (TokenForRepo lookupInst mint s o r).state.cache = some v := by
  cases hfix : s.installationId with
  | some fid =>
      rw [tokenForRepo_fixed hfix]
      exact ⟨by rw [getOrSetSource_installationId, hfix],
             fun k v h => getOrSetSource_preserves _ h⟩
  | none =>
      cases hhit : lookupOwner o s.cache with
      | some ts =>
          rw [tokenForRepo_dyn_hit hfix hhit]
          exact ⟨hfix, fun k v h => h⟩
      | none =>
          cases hlk : lookupInst o r with
          | error e =>
              rw [tokenForRepo_dyn_lookup_err hfix hhit hlk]
              exact ⟨hfix, fun k v h => h⟩
          | ok instId =>
              rw [tokenForRepo_dyn_lookup_ok hfix hhit hlk]
              exact ⟨by rw [getOrSetSource_installationId, hfix],
                     fun k v h => getOrSetSource_preserves _ h⟩

theorem runRepos_cons (lookupInst : String → String → Except String Int)
    (mint : Source → Except String String) (s : TMState) (o r : String)
    (rest : List (String × String)) :
    runRepos lookupInst mint s ((o, r) :: rest) =
      ((runRepos lookupInst mint (TokenForRepo lookupInst mint s o r).state rest).1,
       TokenForRepo lookupInst mint s o r ::
         (runRepos lookupInst mint (TokenForRepo lookupInst mint s o r).state rest).2) := rfl

/-- A whole trace of `TokenForRepo` calls preserves the configured
installation id and every existing cache entry. -/
theorem runRepos_preserves (lookupInst : String → String → Except String Int)
    (mint : Source → Except String String) :
    ∀ (calls : List (String × String)) (s : TMState),
      (runRepos lookupInst mint s calls).1.installationId = s.installationId ∧
      ∀ k v, lookupOwner k s.cache = some v →
        lookupOwner k (runRepos lookupInst mint s calls).1.cache = some v := by
  intro calls
  induction calls with
  | nil => intro s; exact ⟨rfl, fun _ _ h => h⟩
  | cons c rest ih =>
      obtain ⟨o, r⟩ := c
      intro s
      rw [runRepos_cons]
      obtain ⟨hstep1, hstep2⟩ := tokenForRepo_preserves lookupInst mint s o r
      obtain ⟨ih1, ih2⟩ := ih (TokenForRepo lookupInst mint s o r).state
      exact ⟨by rw [ih1, hstep1], fun k v h => ih2 k v (hstep2 k v h)⟩

/-- `getOrSetSource` with a factory that always uses installation id `i`
returns a source built from `i` (whether cached or fresh) when every cached
source was built from `i`, keeps that invariant, and keeps the cache keys
duplicate-free. -/
theorem getOrSetSource_inv {s : TMState} (o : String) (i : Int)
    (hall : ∀ p ∈ s.cache, p.2.instId = i)
    (hnd : (s.cache.map Prod.fst).Nodup) :
    (getOrSetSource s o i).1.instId = i ∧
    (∀ p ∈ (getOrSetSource s o i).2.1.cache, p.2.instId = i) ∧
    ((getOrSetSource s o i).2.1.cache.map Prod.fst).Nodup := by
  cases hc : lookupOwner o s.cache with
  | some ts =>
      rw [getOrSetSource_hit i hc]
      exact ⟨hall _ (lookupOwner_mem hc), hall, hnd⟩
  | none =>
      rw [getOrSetSource_miss i hc]
      refine ⟨rfl, ?_, ?_⟩
      · intro p hp
        rcases List.mem_cons.mp hp with he | hm
        · rw [he]
        · exact hall p hm
      · simp only [List.map_cons]
        exact List.nodup_cons.mpr ⟨lookupOwner_none_not_mem hc, hnd⟩

/-- Fixed-installation trace invariant: starting from any state whose
installation id is fixed to `fid`, whose cached sources were all built
from `fid` and whose cache keys are duplicate-free, a whole trace of
`TokenForRepo` calls keeps all three facts and serves every call with
zero discovery lookups, from a source built from `fid`. -/
theorem runRepos_fixed (fid : Int)
    (lookupInst : String → String → Except String Int)
    (mint : Source → Except String String) :
    ∀ (calls : List (String × String)) (s : TMState),
      s.installationId = some fid →
      (∀ p ∈ s.cache, p.2.instId = fid) →
      (s.cache.map Prod.fst).Nodup →
      (runRepos lookupInst mint s calls).1.installationId = some fid ∧
      (∀ p ∈ (runRepos lookupInst mint s calls).1.cache, p.2.instId = fid) ∧
      ((runRepos lookupInst mint s calls).1.cache.map Prod.fst).Nodup ∧
      ∀ out ∈ (runRepos lookupInst mint s calls).2,
        out.lookupCalls = 0 ∧
        ∃ ts, out.source = some ts ∧ ts.instId = fid ∧ out.result = mint ts := by
  intro calls
  induction calls with
  | nil =>
      intro s h1 h2 h3
      exact ⟨h1, h2, h3, by intro out hout; cases hout⟩
  | cons c rest ih =>
      obtain ⟨o, r⟩ := c
      intro s h1 h2 h3
      rw [runRepos_cons]
      obtain ⟨hi1, hi2, hi3⟩ := getOrSetSource_inv o fid h2 h3
      have hstep := tokenForRepo_fixed h1 lookupInst mint o r
      have hst1 : (TokenForRepo lookupInst mint s o r).state.installationId =
          some fid := by
        rw [hstep, getOrSetSource_installationId, h1]
      have hst2 : ∀ p ∈ (TokenForRepo lookupInst mint s o r).state.cache,
          p.2.instId = fid := by rw [hstep]; exact hi2
      have hst3 : ((TokenForRepo lookupInst mint s o r).state.cache.map
          Prod.fst).Nodup := by rw [hstep]; exact hi3
      obtain ⟨j1, j2, j3, j4⟩ := ih _ hst1 hst2 hst3
      refine ⟨j1, j2, j3, ?_⟩
      intro out hout
      rcases List.mem_cons.mp hout with he | hm
      · subst he
        rw [hstep]
        exact ⟨rfl, (getOrSetSource s o fid).1, rfl, hi1, rfl⟩
      · exact j4 out hm

/-! ### Claim theorems -/

/-- C1: For every `getOrSetSource` call (the `tokenFor(tenantKey, factory)`
operation of the TokenManager): if an entry for the key exists it is
returned, the state is unchanged and the factory is not invoked; otherwise
the factory is invoked, its result is stored under the key and returned.
Existing entries are never removed or replaced by any call, and over every
sequence of calls starting with the key absent, the factory runs at most
once for that key and all sources returned for that key are the identical
object. -/
theorem getOrSetSource_cache_contract :
    (∀ (s : TMState) (o : String) (i : Int) (ts : Source),
        lookupOwner o s.cache = some ts →
        getOrSetSource s o i = (ts, s, false))
    ∧ (∀ (s : TMState) (o : String) (i : Int),
        lookupOwner o s.cache = none →
        (getOrSetSource s o i).2.2 = true ∧
        lookupOwner o (getOrSetSource s o i).2.1.cache =
          some (getOrSetSource s o i).1)
    ∧ (∀ (s : TMState) (o : String) (i : Int) (k : String) (v : Source),
        lookupOwner k s.cache = some v →
        lookupOwner k (getOrSetSource s o i).2.1.cache = some v)
    ∧ (∀ (s : TMState) (calls : List (String × Int)) (k : String),
        lookupOwner k s.cache = none →
        creationsFor k (runCalls s calls).2 ≤ 1 ∧
        ∀ r1 ∈ resultsFor k (runCalls s calls).2,
          ∀ r2 ∈ resultsFor k (runCalls s calls).2, r1 = r2) := by
  refine ⟨fun s o i ts h => getOrSetSource_hit i h, ?_, ?_, ?_⟩
  · intro s o i h
    constructor
    · rw [getOrSetSource_miss i h]
    · rw [getOrSetSource_miss i h]
      simp [lookupOwner_cons]
  · intro s o i k v h
    exact getOrSetSource_preserves i h
  · intro s calls k h
    exact runCalls_fresh k calls s h

/-- Witness for C1 at concrete inputs: a hit returns the cached entry
without creating, a miss creates and stores, and a three-call trace for
one key creates at most once and always returns the same object. -/
theorem getOrSetSource_cache_contract_witness :
    getOrSetSource ⟨none, [("acme", ⟨5, 7⟩)], 6⟩ "acme" 9 =
      (⟨5, 7⟩, ⟨none, [("acme", ⟨5, 7⟩)], 6⟩, false)
    ∧ (getOrSetSource (initTM none) "acme" 7).2.2 = true
    ∧ creationsFor "acme"
        (runCalls (initTM none) [("acme", 7), ("acme", 8), ("acme", 9)]).2 ≤ 1 := by
  refine ⟨getOrSetSource_cache_contract.1 _ _ _ _ (by decide), ?_, ?_⟩
  · exact (getOrSetSource_cache_contract.2.1 (initTM none) "acme" 7 (by decide)).1
  · exact (getOrSetSource_cache_contract.2.2.2 (initTM none)
      [("acme", 7), ("acme", 8), ("acme", 9)] "acme" (by decide)).1

/-- C5: With a fixed installation id configured, every `TokenForRepo`
call in every trace from the initial state performs no per-repository
installation lookup and obtains its token by minting from a source built
from the fixed installation id, and the cache holds at most one entry per
owner key. -/
theorem tokenForRepo_fixed_mode :
    ∀ (fid : Int) (lookupInst : String → String → Except String Int)
      (mint : Source → Except String String) (calls : List (String × String)),
      (∀ out ∈ (runRepos lookupInst mint (initTM (some fid)) calls).2,
          out.lookupCalls = 0 ∧
          ∃ ts, out.source = some ts ∧ ts.instId = fid ∧ out.result = mint ts)
      ∧ ((runRepos lookupInst mint (initTM (some fid)) calls).1.cache.map
          Prod.fst).Nodup := by
  intro fid lookupInst mint calls
  obtain ⟨_, _, h3, h4⟩ := runRepos_fixed fid lookupInst mint calls
    (initTM (some fid)) rfl (by intro p hp; cases hp) List.nodup_nil
  exact ⟨h4, h3⟩

/-- Witness for C5: a two-owner trace in fixed mode; both calls mint from
sources built from installation 42 with no discovery lookups. -/
theorem tokenForRepo_fixed_mode_witness :
    ∀ out ∈ (runRepos (fun _ _ => Except.error "unreachable")
        (fun ts => Except.ok ("tok" ++ toString ts.objId))
        (initTM (some 42)) [("acme", "widgets"), ("acme", "gadgets")]).2,
      out.lookupCalls = 0 ∧
      ∃ ts, out.source = some ts ∧ ts.instId = 42 ∧
        out.result = Except.ok ("tok" ++ toString ts.objId) := by
  have h := (tokenForRepo_fixed_mode 42 (fun _ _ => Except.error "unreachable")
    (fun ts => Except.ok ("tok" ++ toString ts.objId))
    [("acme", "widgets"), ("acme", "gadgets")]).1
  intro out hout
  obtain ⟨h1, ts, h2, h3, h4⟩ := h out hout
  exact ⟨h1, ts, h2, h3, h4⟩

/-- C6: In dynamic-discovery mode, after a successful `TokenForRepo` call
for an owner that discovered an installation id and cached a source under
the owner key, every later call for the same owner — whatever repo it
names and whatever calls happen in between — is served by minting from
that same cached source object, with no further discovery lookup and no
state change. -/
theorem tokenForRepo_dynamic_reuse :
    ∀ (lookupInst : String → String → Except String Int)
      (mint : Source → Except String String) (s : TMState)
      (owner r1 : String) (instId : Int) (t : String),
      s.installationId = none →
      lookupOwner owner s.cache = none →
      lookupInst owner r1 = Except.ok instId →
      (TokenForRepo lookupInst mint s owner r1).result = Except.ok t →
      ∃ ts, (TokenForRepo lookupInst mint s owner r1).source = some ts ∧
        ∀ (mid : List (String × String)) (r2 : String),
          (TokenForRepo lookupInst mint
              (runRepos lookupInst mint
                (TokenForRepo lookupInst mint s owner r1).state mid).1
              owner r2) =
            { result := mint ts,
              state := (runRepos lookupInst mint
                (TokenForRepo lookupInst mint s owner r1).state mid).1,
              lookupCalls := 0, factoryInvoked := false,
              source := some ts } := by
  intro lookupInst mint s owner r1 instId t hdyn hmiss hdisc _
  rw [tokenForRepo_dyn_lookup_ok hdyn hmiss hdisc]
  refine ⟨(getOrSetSource s owner instId).1, rfl, ?_⟩
  intro mid r2
  have hcached : lookupOwner owner (getOrSetSource s owner instId).2.1.cache =
      some (getOrSetSource s owner instId).1 := by
    rw [getOrSetSource_miss instId hmiss]
    simp [lookupOwner_cons]
  obtain ⟨hp1, hp2⟩ := runRepos_preserves lookupInst mint mid
    (getOrSetSource s owner instId).2.1
  have hdyn2 : (runRepos lookupInst mint
      (getOrSetSource s owner instId).2.1 mid).1.installationId = none := by
    rw [hp1, getOrSetSource_installationId, hdyn]
  exact tokenForRepo_dyn_hit hdyn2 (hp2 owner _ hcached) lookupInst mint r2

/-- Witness for C6: owner acme discovers installation 42 on the first
call; after an unrelated call for another owner, a call for a different
repo of acme is served from the same cached source object with no second
discovery lookup. -/
theorem tokenForRepo_dynamic_reuse_witness :
    ∃ ts, (TokenForRepo (fun _ _ => Except.ok 42) (fun _ => Except.ok "tok")
        (initTM none) "acme" "widgets").source = some ts ∧
      (TokenForRepo (fun _ _ => Except.ok 42) (fun _ => Except.ok "tok")
          (runRepos (fun _ _ => Except.ok 42) (fun _ => Except.ok "tok")
            (TokenForRepo (fun _ _ => Except.ok 42) (fun _ => Except.ok "tok")
              (initTM none) "acme" "widgets").state [("other", "lib")]).1
          "acme" "gadgets").lookupCalls = 0 := by
  obtain ⟨ts, h1, h2⟩ := tokenForRepo_dynamic_reuse
    (fun _ _ => Except.ok 42) (fun _ => Except.ok "tok") (initTM none)
    "acme" "widgets" 42 "tok" rfl (by decide) rfl rfl
  refine ⟨ts, h1, ?_⟩
  rw [h2 [("other", "lib")] "gadgets"]

/-- C8 counterexample: `TokenForRepo` can fail to obtain a token while the
cache state does change. With a lookup oracle that discovers installation
7 and a source whose minting fails, the call returns an error and yet an
entry for the owner is now stored, so the next call will not retry
discovery. This refutes the claim that every failing `TokenForRepo` call
leaves the cache without an entry for the owner. -/
theorem tokenForRepo_failure_stores_entry :
    (TokenForRepo (fun _ _ => Except.ok 7)
        (fun _ => Except.error "could not mint installation token")
        (initTM none) "acme" "widgets").result =
      Except.error "could not mint installation token"
    ∧ lookupOwner "acme"
        (TokenForRepo (fun _ _ => Except.ok 7)
          (fun _ => Except.error "could not mint installation token")
          (initTM none) "acme" "widgets").state.cache = some ⟨0, 7⟩
    ∧ (TokenForRepo (fun _ _ => Except.ok 7)
        (fun _ => Except.error "could not mint installation token")
        (TokenForRepo (fun _ _ => Except.ok 7)
          (fun _ => Except.error "could not mint installation token")
          (initTM none) "acme" "widgets").state "acme" "widgets").lookupCalls
      = 0 := by
  refine ⟨rfl, by decide, by decide⟩

/-- C8 (amended): When `TokenForRepo` fails because the per-repository
installation lookup fails, the error is returned, the state is completely
unchanged, the factory is not invoked and no entry is stored for the
owner, so a repeated call performs the discovery lookup again from
scratch. (When instead minting from a freshly created source fails, the
source stays cached and the retry skips discovery.) -/
theorem tokenForRepo_lookup_failure_no_cache :
    ∀ (lookupInst : String → String → Except String Int)
      (mint : Source → Except String String) (s : TMState)
      (owner repo e : String),
      s.installationId = none →
      lookupOwner owner s.cache = none →
      lookupInst owner repo = Except.error e →
      (TokenForRepo lookupInst mint s owner repo).result =
        Except.error
          ("looking up installation for " ++ owner ++ "/" ++ repo ++ ": " ++ e)
      ∧ (TokenForRepo lookupInst mint s owner repo).state = s
      ∧ (TokenForRepo lookupInst mint s owner repo).factoryInvoked = false
      ∧ lookupOwner owner (TokenForRepo lookupInst mint s owner repo).state.cache
          = none
      ∧ (TokenForRepo lookupInst mint
          (TokenForRepo lookupInst mint s owner repo).state owner repo).lookupCalls
          = 1 := by
  intro lookupInst mint s owner repo e hdyn hmiss herr
  rw [tokenForRepo_dyn_lookup_err hdyn hmiss herr]
  exact ⟨rfl, rfl, rfl, hmiss,
    by rw [tokenForRepo_dyn_lookup_err hdyn hmiss herr mint]⟩

/-- Witness for the amended C8: a concrete failing lookup leaves the
initial state untouched and the repeated call performs discovery again. -/
theorem tokenForRepo_lookup_failure_no_cache_witness :
    (TokenForRepo (fun _ _ => Except.error "GitHub API returned 404")
        (fun _ => Except.ok "tok") (initTM none) "acme" "widgets").state =
      initTM none
    ∧ (TokenForRepo (fun _ _ => Except.error "GitHub API returned 404")
        (fun _ => Except.ok "tok")
        (TokenForRepo (fun _ _ => Except.error "GitHub API returned 404")
          (fun _ => Except.ok "tok") (initTM none) "acme" "widgets").state
        "acme" "widgets").lookupCalls = 1 := by
  obtain ⟨_, h2, _, _, h5⟩ := tokenForRepo_lookup_failure_no_cache
    (fun _ _ => Except.error "GitHub API returned 404")
    (fun _ => Except.ok "tok") (initTM none) "acme" "widgets"
    "GitHub API returned 404" rfl (by decide) rfl
  exact ⟨h2, h5⟩

theorem findAsset_cons (x : GithubFileAsset) (rest : List GithubFileAsset)
    (target : String) :
    findAsset (x :: rest) target =
      if x.name = target then some x else findAsset rest target := rfl

/-- `findAsset` returns an asset whose name is exactly the target, and it
is the first such asset: everything before it in provider order has a
different name. -/
theorem findAsset_first :
    ∀ (assets : List GithubFileAsset) (target : String) (a : GithubFileAsset),
      findAsset assets target = some a →
      a.name = target ∧
      ∃ pre post, assets = pre ++ a :: post ∧ ∀ b ∈ pre, b.name ≠ target := by
  intro assets
  induction assets with
  | nil => intro t a h; cases h
  | cons x rest ih =>
      intro t a h
      rw [findAsset_cons] at h
      by_cases hx : x.name = t
      · rw [if_pos hx] at h
        cases h
        exact ⟨hx, [], rest, rfl, by intro b hb; cases hb⟩
      · rw [if_neg hx] at h
        obtain ⟨ha, pre, post, heq, hpre⟩ := ih t a h
        refine ⟨ha, x :: pre, post, by rw [heq]; rfl, ?_⟩
        intro b hb
        rcases List.mem_cons.mp hb with he | hm
        · rw [he]; exact hx
        · exact hpre b hm

/-- C2 (code evaluation at the failing input): on the tag route
`/OWNER/REPO/TAG`, when no asset name equals the tag, `taggedHandler`
falls out of its loop and returns without writing any response — not the
404 the claim states (Go then sends an implicit empty 200). The file
routes do write 404 through `taggedFileHandler`, and neither handler
issues a second upstream request for asset bytes in the no-match case. -/
theorem taggedHandler_missing_asset_divergence :
    taggedHandler (fun _ => Except.ok (200, "BYTES"))
        (Except.ok [⟨"widgets.tar.gz", "application/gzip", "B1", "U1"⟩])
        "v1.2.3" =
      { response := HandlerResponse.unwritten, assetRequests := [] }
    ∧ taggedFileHandler (fun _ => Except.ok (200, "BYTES"))
        (Except.ok [⟨"widgets.tar.gz", "application/gzip", "B1", "U1"⟩])
        "missing.zip" =
      { response := HandlerResponse.httpError 404
          "File not found in release assets", assetRequests := [] }
    ∧ ∀ msg, (HandlerResponse.unwritten ≠ HandlerResponse.httpError 404 msg) := by
  exact ⟨by decide, by decide, fun msg h => nomatch h⟩

/-- C7: Asset selection is exact, case-sensitive string equality on the
asset name, first match in provider order; the second authenticated
request is a GET on the matched asset's API `url` field with
`Accept: application/octet-stream`; and a non-200 status on that request
yields a 500 response. -/
theorem asset_match_and_fetch_contract :
    (∀ (assets : List GithubFileAsset) (target : String) (a : GithubFileAsset),
        findAsset assets target = some a →
        a.name = target ∧
        ∃ pre post, assets = pre ++ a :: post ∧ ∀ b ∈ pre, b.name ≠ target)
    ∧ (∀ (doReq : AssetRequest → Except String (Nat × String))
        (assets : List GithubFileAsset) (fname : String) (a : GithubFileAsset),
        findAsset assets fname = some a →
        (taggedFileHandler doReq (Except.ok assets) fname).assetRequests =
          [{ method := "GET", url := a.url, accept := "application/octet-stream" }])
    ∧ (∀ (doReq : AssetRequest → Except String (Nat × String))
        (assets : List GithubFileAsset) (fname : String) (a : GithubFileAsset)
        (st : Nat) (body : String),
        findAsset assets fname = some a →
        doReq (mkAssetRequest a) = Except.ok (st, body) → ¬ st = 200 →
        (taggedFileHandler doReq (Except.ok assets) fname).response =
          HandlerResponse.httpError 500
            ("Error fetching file content: " ++
              ("GitHub API returned non-200 status for asset: " ++ toString st))) := by
  refine ⟨findAsset_first, ?_, ?_⟩
  · intro doReq assets fname a h
    cases hf : fileFetch doReq a <;>
      simp [taggedFileHandler, h, hf, mkAssetRequest]
  · intro doReq assets fname a st body h hdo hst
    have hf : fileFetch doReq a =
        Except.error
          ("GitHub API returned non-200 status for asset: " ++ toString st) := by
      simp [fileFetch, hdo, hst]
    simp [taggedFileHandler, h, hf]

/-- Witness for C7: among assets named `A.tgz` and `a.tgz` (differing in
case only), asking for `a.tgz` selects the second, the request goes to
its API URL `U2` with the octet-stream Accept header, and a 404 from
upstream becomes a 500. -/
theorem asset_match_and_fetch_contract_witness :
    (taggedFileHandler (fun _ => Except.ok (404, "nf"))
        (Except.ok [⟨"A.tgz", "application/gzip", "B1", "U1"⟩,
                    ⟨"a.tgz", "application/gzip", "B2", "U2"⟩])
        "a.tgz").assetRequests =
      [{ method := "GET", url := "U2", accept := "application/octet-stream" }]
    ∧ (taggedFileHandler (fun _ => Except.ok (404, "nf"))
        (Except.ok [⟨"A.tgz", "application/gzip", "B1", "U1"⟩,
                    ⟨"a.tgz", "application/gzip", "B2", "U2"⟩])
        "a.tgz").response =
      HandlerResponse.httpError 500
        ("Error fetching file content: " ++
          ("GitHub API returned non-200 status for asset: " ++ toString 404)) := by
  constructor
  · exact asset_match_and_fetch_contract.2.1 _ _ _
      ⟨"a.tgz", "application/gzip", "B2", "U2"⟩ (by decide)
  · exact asset_match_and_fetch_contract.2.2 _ _ _
      ⟨"a.tgz", "application/gzip", "B2", "U2"⟩ 404 "nf" (by decide) rfl
      (by decide)

/-- C9 counterexample: the registered mux patterns carry no method
selector, so a POST for `/acme/widgets/v1.2.3` is dispatched to the tag
handler rather than rejected — the surface does not accept GET only. -/
theorem muxRoute_accepts_post :
    muxRoute "POST" ["acme", "widgets", "v1.2.3"] =
      RouteMatch.tagged "acme" "widgets" "v1.2.3"
    ∧ muxRoute "POST" ["acme", "widgets", "v1.2.3"] ≠ RouteMatch.notFound := by
  exact ⟨rfl, by decide⟩

/-- C9 (amended): The mux registers exactly the three path patterns
`/{user}/{repo}/{tag}`, `/{user}/{repo}/{tag}/{file}` and
`/{user}/{repo}/releases/download/{tag}/{file}`; since none carries a
method selector, every HTTP method is dispatched alike (not GET only);
and a path matching none of the three shapes gets the mux's default
not-found response. -/
theorem muxRoute_surface :
    (∀ (m u r t : String), muxRoute m [u, r, t] = RouteMatch.tagged u r t)
    ∧ (∀ (m u r t f : String),
        muxRoute m [u, r, t, f] = RouteMatch.taggedFile u r t f)
    ∧ (∀ (m u r t f : String),
        muxRoute m [u, r, "releases", "download", t, f] =
          RouteMatch.releasesDownload u r t f)
    ∧ (∀ (m1 m2 : String) (segs : List String),
        muxRoute m1 segs = muxRoute m2 segs)
    ∧ (∀ (m : String) (segs : List String),
        (¬ ∃ u r t, segs = [u, r, t]) →
        (¬ ∃ u r t f, segs = [u, r, t, f]) →
        (¬ ∃ u r t f, segs = [u, r, "releases", "download", t, f]) →
        muxRoute m segs = RouteMatch.notFound) := by
  refine ⟨fun m u r t => rfl, fun m u r t f => rfl,
    fun m u r t f => by simp [muxRoute], fun m1 m2 segs => rfl, ?_⟩
  intro m segs h3 h4 h6
  match segs with
  | [] => rfl
  | [a] => rfl
  | [a, b] => rfl
  | [a, b, c] => exact absurd ⟨a, b, c, rfl⟩ h3
  | [a, b, c, d] => exact absurd ⟨a, b, c, d, rfl⟩ h4
  | [a, b, c, d, e] => rfl
  | [a, b, c, d, e, f] =>
      have hcd : ¬(c = "releases" ∧ d = "download") := by
        rintro ⟨hc, hd⟩
        exact h6 ⟨a, b, e, f, by rw [hc, hd]⟩
      exact if_neg hcd
  | a :: b :: c :: d :: e :: f :: g :: rest => rfl

/-- Witness for the amended C9: the three shapes from the spec's examples
dispatch to their handlers for any method, and a two-segment path is not
found. -/
theorem muxRoute_surface_witness :
    muxRoute "GET" ["acme", "widgets", "v1.2.3"] =
      RouteMatch.tagged "acme" "widgets" "v1.2.3"
    ∧ muxRoute "GET" ["acme", "widgets", "releases", "download", "v1.2.3",
        "widgets.tar.gz"] =
      RouteMatch.releasesDownload "acme" "widgets" "v1.2.3" "widgets.tar.gz"
    ∧ muxRoute "GET" ["acme", "widgets"] = RouteMatch.notFound := by
  refine ⟨muxRoute_surface.1 "GET" "acme" "widgets" "v1.2.3",
    muxRoute_surface.2.2.1 "GET" "acme" "widgets" "v1.2.3" "widgets.tar.gz",
    muxRoute_surface.2.2.2.2 "GET" ["acme", "widgets"] ?_ ?_ ?_⟩
  · rintro ⟨u, r, t, h⟩; cases h
  · rintro ⟨u, r, t, f, h⟩; cases h
  · rintro ⟨u, r, t, f, h⟩; cases h

/-! ### buildTokenSource lemmas -/

theorem buildTokenSource_zero {config : AppConfig}
    (hcfg : ¬(config.appId = none ∧ config.clientId = none))
    (hiid : config.installationId = none) :
    buildTokenSource config (Except.ok ()) (Except.ok []) =
      (Except.error
        "no installations found; install the GitHub App on an account first",
       []) := by
  simp [buildTokenSource, hcfg, hiid]

theorem buildTokenSource_one {config : AppConfig}
    (hcfg : ¬(config.appId = none ∧ config.clientId = none))
    (hiid : config.installationId = none) (inst : GhInstallation) :
    buildTokenSource config (Except.ok ()) (Except.ok [inst]) =
      (Except.ok (BuiltSource.installation inst.id),
       ["Using installation " ++ toString inst.id ++
        " (" ++ inst.accountLogin ++ ")"]) := by
  simp [buildTokenSource, hcfg, hiid]

theorem buildTokenSource_multi {config : AppConfig}
    (hcfg : ¬(config.appId = none ∧ config.clientId = none))
    (hiid : config.installationId = none) (x y : GhInstallation)
    (rest : List GhInstallation) :
    buildTokenSource config (Except.ok ()) (Except.ok (x :: y :: rest)) =
      (Except.error
        "multiple installations found; set installationId in config to select one",
       "Multiple installations found:" ::
         (x :: y :: rest).map (fun i =>
           "  - " ++ i.accountLogin ++ " (installation ID: " ++
             toString i.id ++ ")")) := by
  simp [buildTokenSource, hcfg, hiid]

/-- C3: At startup, with no fixed installation id configured (and valid
app credentials): when installation discovery returns more than one
installation, `buildTokenSource` fails with an error and prints every
discovered installation for the operator; when it returns zero
installations, it fails with the configuration error. -/
theorem buildTokenSource_ambiguity_and_zero :
    ∀ (config : AppConfig) (insts : List GhInstallation),
      ¬(config.appId = none ∧ config.clientId = none) →
      config.installationId = none →
      (2 ≤ insts.length →
        (buildTokenSource config (Except.ok ()) (Except.ok insts)).1 =
          Except.error
            "multiple installations found; set installationId in config to select one"
        ∧ ∀ i ∈ insts,
            ("  - " ++ i.accountLogin ++ " (installation ID: " ++
              toString i.id ++ ")")
              ∈ (buildTokenSource config (Except.ok ()) (Except.ok insts)).2)
      ∧ (insts = [] →
        (buildTokenSource config (Except.ok ()) (Except.ok insts)).1 =
          Except.error
            "no installations found; install the GitHub App on an account first") := by
  intro config insts hcfg hiid
  constructor
  · intro hlen
    match insts, hlen with
    | x :: y :: rest, _ =>
        rw [buildTokenSource_multi hcfg hiid]
        refine ⟨rfl, ?_⟩
        intro i hi
        exact List.mem_cons_of_mem _ (List.mem_map_of_mem _ hi)
  · intro hz
    subst hz
    rw [buildTokenSource_zero hcfg hiid]

/-- Witness for C3: with a client id configured and two discovered
installations, construction fails and both installations appear in the
printed list; with zero installations it fails with the configuration
error. -/
theorem buildTokenSource_ambiguity_and_zero_witness :
    (buildTokenSource ⟨none, some "Iv23liABC", none⟩ (Except.ok ())
        (Except.ok [⟨11, "acme", "all"⟩, ⟨22, "globex", "selected"⟩])).1 =
      Except.error
        "multiple installations found; set installationId in config to select one"
    ∧ ("  - " ++ "globex" ++ " (installation ID: " ++ toString (22 : Int) ++ ")")
        ∈ (buildTokenSource ⟨none, some "Iv23liABC", none⟩ (Except.ok ())
            (Except.ok [⟨11, "acme", "all"⟩, ⟨22, "globex", "selected"⟩])).2
    ∧ (buildTokenSource ⟨none, some "Iv23liABC", none⟩ (Except.ok ())
        (Except.ok [])).1 =
      Except.error
        "no installations found; install the GitHub App on an account first" := by
  obtain ⟨hmulti, _⟩ := buildTokenSource_ambiguity_and_zero
    ⟨none, some "Iv23liABC", none⟩
    [⟨11, "acme", "all"⟩, ⟨22, "globex", "selected"⟩] (by simp) rfl
  obtain ⟨h1, h2⟩ := hmulti (by decide)
  obtain ⟨_, hzero⟩ := buildTokenSource_ambiguity_and_zero
    ⟨none, some "Iv23liABC", none⟩ [] (by simp) rfl
  exact ⟨h1, h2 ⟨22, "globex", "selected"⟩ (by simp), hzero rfl⟩

/-- C10: With no fixed installation id configured (and valid app
credentials), when discovery returns exactly one installation,
`buildTokenSource` succeeds and yields an installation token source built
from that installation's id. -/
theorem buildTokenSource_single_installation :
    ∀ (config : AppConfig) (inst : GhInstallation),
      ¬(config.appId = none ∧ config.clientId = none) →
      config.installationId = none →
      (buildTokenSource config (Except.ok ()) (Except.ok [inst])).1 =
        Except.ok (BuiltSource.installation inst.id) := by
  intro config inst hcfg hiid
  rw [buildTokenSource_one hcfg hiid]

/-- Witness for C10: an app-id config with one discovered installation
yields the source for installation 11. -/
theorem buildTokenSource_single_installation_witness :
    (buildTokenSource ⟨some 123456, none, none⟩ (Except.ok ())
        (Except.ok [⟨11, "acme", "all"⟩])).1 =
      Except.ok (BuiltSource.installation 11) :=
  buildTokenSource_single_installation ⟨some 123456, none, none⟩
    ⟨11, "acme", "all"⟩ (by simp) rfl

/-- C4: `GithubTripper.RoundTrip` fails without invoking the underlying
transport when no tenant context is bound to the request; it propagates a
token-retrieval failure without invoking the underlying transport; and
only when both succeed does it delegate, with the Authorization header set
from the retrieved token. -/
theorem roundTrip_auth_contract :
    ∀ (lookupInst : String → String → Except String Int)
      (mint : Source → Except String String)
      (base : OutRequest → Except String Nat) (s : TMState) (req : OutRequest),
      (req.tenantContext = none →
        (roundTrip lookupInst mint base s req).delegated = false ∧
        (roundTrip lookupInst mint base s req).result =
          Except.error "no repo context set on request")
      ∧ (∀ owner repo e, req.tenantContext = some (owner, repo) →
          (TokenForRepo lookupInst mint s owner repo).result = Except.error e →
          (roundTrip lookupInst mint base s req).delegated = false ∧
          (roundTrip lookupInst mint base s req).result =
            Except.error ("error getting token: " ++ e))
      ∧ (∀ owner repo t, req.tenantContext = some (owner, repo) →
          (TokenForRepo lookupInst mint s owner repo).result = Except.ok t →
          (roundTrip lookupInst mint base s req).delegated = true ∧
          getHeader (roundTrip lookupInst mint base s req).request.headers
            "Authorization" = some ("token " ++ t) ∧
          (roundTrip lookupInst mint base s req).result =
            base (roundTrip lookupInst mint base s req).request) := by
  intro lookupInst mint base s req
  refine ⟨?_, ?_, ?_⟩
  · intro h
    simp [roundTrip, h]
  · intro owner repo e hctx herr
    simp [roundTrip, hctx, herr]
  · intro owner repo t hctx hok
    simp [roundTrip, hctx, hok, setHeader, getHeader]

/-- Witness for C4: a request without tenant context fails undelegated; a
request bound to (acme, widgets) in fixed-installation mode with a minting
source is delegated with the Authorization header set. -/
theorem roundTrip_auth_contract_witness :
    (roundTrip (fun _ _ => Except.ok 42) (fun _ => Except.ok "T")
        (fun _ => Except.ok 200) (initTM (some 42))
        ⟨none, []⟩).delegated = false
    ∧ (roundTrip (fun _ _ => Except.ok 42) (fun _ => Except.ok "T")
        (fun _ => Except.ok 200) (initTM (some 42))
        ⟨some ("acme", "widgets"), []⟩).delegated = true
    ∧ getHeader (roundTrip (fun _ _ => Except.ok 42) (fun _ => Except.ok "T")
        (fun _ => Except.ok 200) (initTM (some 42))
        ⟨some ("acme", "widgets"), []⟩).request.headers "Authorization" =
      some ("token " ++ "T") := by
  obtain ⟨h1, _⟩ := (roundTrip_auth_contract (fun _ _ => Except.ok 42)
    (fun _ => Except.ok "T") (fun _ => Except.ok 200) (initTM (some 42))
    ⟨none, []⟩).1 rfl
  obtain ⟨h2, h3, _⟩ := (roundTrip_auth_contract (fun _ _ => Except.ok 42)
    (fun _ => Except.ok "T") (fun _ => Except.ok 200) (initTM (some 42))
    ⟨some ("acme", "widgets"), []⟩).2.2 "acme" "widgets" "T" rfl rfl
  exact ⟨h1, h2, h3⟩

end PklProxy
